import Mathlib

/-!
Shallow embedding of `controller.py` (FCND-Controls), a cascaded nonlinear
quadrotor flight controller, over exact real arithmetic, together with
theorems settling the specification claims.  Machine floats are modelled by
`ℝ`; `numpy` elementwise vector operations on 3-vectors are modelled by
componentwise operations on `ℝ × ℝ × ℝ`; `np.clip`, `np.linalg.norm` and
`np.argmin` are modelled by `clip`, `norm3` and `idxMin` below; Python's
negative list indexing is modelled by `pyGet`.
-/

noncomputable section

namespace FCND

/-! ## Module-level constants of `controller.py` -/

def DRONE_MASS_KG : ℝ := 0.5

def GRAVITY : ℝ := -9.81

def MOI : ℝ × ℝ × ℝ := (0.005, 0.005, 0.01)

def MAX_THRUST : ℝ := 10.0

def MAX_TORQUE : ℝ := 1.0

/-! ## Numeric utilities modelling numpy primitives -/

/-- `np.clip x lo hi`: clamp `x` into `[lo, hi]`. -/
def clip (x lo hi : ℝ) : ℝ := min (max x lo) hi

/-- Componentwise subtraction of 3-vectors (numpy array subtraction). -/
def vsub (a b : ℝ × ℝ × ℝ) : ℝ × ℝ × ℝ := (a.1 - b.1, a.2.1 - b.2.1, a.2.2 - b.2.2)

/-- Componentwise addition of 3-vectors (numpy array addition). -/
def vadd (a b : ℝ × ℝ × ℝ) : ℝ × ℝ × ℝ := (a.1 + b.1, a.2.1 + b.2.1, a.2.2 + b.2.2)

/-- Scalar times 3-vector (numpy broadcast multiplication). -/
def vsmul (c : ℝ) (v : ℝ × ℝ × ℝ) : ℝ × ℝ × ℝ := (c * v.1, c * v.2.1, c * v.2.2)

/-- 3-vector divided by a scalar (numpy broadcast division). -/
def vdiv (v : ℝ × ℝ × ℝ) (c : ℝ) : ℝ × ℝ × ℝ := (v.1 / c, v.2.1 / c, v.2.2 / c)

/-- `np.linalg.norm` of a 3-vector: the Euclidean norm. -/
def norm3 (v : ℝ × ℝ × ℝ) : ℝ := Real.sqrt (v.1 ^ 2 + v.2.1 ^ 2 + v.2.2 ^ 2)

/-- `np.argmin`: index of the first smallest element of a list
(returns 0 on the empty list, which numpy instead rejects — never hit here). -/
def idxMin : List ℝ → ℕ
  | [] => 0
  | [_] => 0
  | a :: b :: rest =>
      let j := idxMin (b :: rest)
      if a ≤ (b :: rest).getD j 0 then 0 else j + 1

/-- Python list indexing with an integer index: a negative index `i`
selects element `len + i` from the end. Out-of-range accesses (which raise
`IndexError` in Python and are never hit in the claims) return `d`. -/
def pyGet {α : Type} (l : List α) (d : α) (i : ℤ) : α :=
  if 0 ≤ i then l.getD i.toNat d else l.getD (l.length - (-i).toNat) d

/-! ## The rotation-matrix collaborator -/

/-- A 3×3 real matrix with named entries, as read (`rot_mat[r, c]` ↦ `mRC`)
by the controller. -/
structure Mat3 where
  m00 : ℝ
  m01 : ℝ
  m02 : ℝ
  m10 : ℝ
  m11 : ℝ
  m12 : ℝ
  m20 : ℝ
  m21 : ℝ
  m22 : ℝ

/-- Modelled from the spec: `euler2RM` lives in the external `frame_utils`
module, which is not part of this repository's sources.  Per the spec's
external-interface contract it maps body-frame vectors into the local NED
frame with the fixed Euler convention "roll about x, then pitch about y,
then yaw about z, intrinsic composition", i.e. `R = Rz(yaw)·Ry(pitch)·Rx(roll)`. -/
def euler2RM (roll pitch yaw : ℝ) : Mat3 :=
  let cr := Real.cos roll
  let sr := Real.sin roll
  let cp := Real.cos pitch
  let sp := Real.sin pitch
  let cy := Real.cos yaw
  let sy := Real.sin yaw
  { m00 := cy * cp
    m01 := cy * sp * sr - sy * cr
    m02 := cy * sp * cr + sy * sr
    m10 := sy * cp
    m11 := sy * sp * sr + cy * cr
    m12 := sy * sp * cr - cy * sr
    m20 := -sp
    m21 := cp * sr
    m22 := cp * cr }

/-! ## The controller's configuration (constructor arguments of
`NonlinearController.__init__`) -/

structure NonlinearController where
  z_k_p : ℝ
  z_k_d : ℝ
  x_k_p : ℝ
  x_k_d : ℝ
  y_k_p : ℝ
  y_k_d : ℝ
  k_p_roll : ℝ
  k_p_pitch : ℝ
  k_p_yaw : ℝ
  k_p_p : ℝ
  k_p_q : ℝ
  k_p_r : ℝ
  max_roll_rad : ℝ
  max_pitch_rad : ℝ

/-- The default gains of `NonlinearController.__init__`. -/
def defaultController : NonlinearController :=
  { z_k_p := 20.0
    z_k_d := 6.0
    x_k_p := 0.25
    x_k_d := 0.25
    y_k_p := 0.25
    y_k_d := 0.25
    k_p_roll := 4.0
    k_p_pitch := 4.0
    k_p_yaw := 5.0
    k_p_p := 27.0
    k_p_q := 27.0
    k_p_r := 10.0
    max_roll_rad := 1.0
    max_pitch_rad := 1.0 }

/-! ## `altitude_control` -/

/-- `NonlinearController.altitude_control`: P-D vertical control projected
through the body z-axis, clipped to `[0, MAX_THRUST]`. -/
def altitude_control (self : NonlinearController)
    (altitude_cmd vertical_velocity_cmd altitude vertical_velocity : ℝ)
    (attitude : ℝ × ℝ × ℝ) (acceleration_ff : ℝ := 0.0) : ℝ :=
  let rot_mat := euler2RM attitude.1 attitude.2.1 attitude.2.2
  let z_err := altitude_cmd - altitude
  let z_err_dot := vertical_velocity_cmd - vertical_velocity
  let b_z := rot_mat.m22
  let p_term := self.z_k_p * z_err
  let d_term := self.z_k_d * z_err_dot
  let u_1_bar := p_term + d_term + acceleration_ff
  let c := (u_1_bar - GRAVITY) / b_z
  clip c 0.0 MAX_THRUST

/-! ## `lateral_position_control` -/

/-- `NonlinearController.lateral_position_control`: P-D horizontal control,
sign-flipped.  Note the y-axis proportional term uses `x_k_p`, as in the
source. -/
def lateral_position_control (self : NonlinearController)
    (local_position_cmd local_velocity_cmd local_position local_velocity : ℝ × ℝ)
    (acceleration_ff : ℝ × ℝ := (0.0, 0.0)) : ℝ × ℝ :=
  let x_cmd := local_position_cmd.1
  let y_cmd := local_position_cmd.2
  let x_dot_cmd := local_velocity_cmd.1
  let y_dot_cmd := local_velocity_cmd.2
  let x := local_position.1
  let y := local_position.2
  let x_dot := local_velocity.1
  let y_dot := local_velocity.2
  let x_dot_dot_acc := acceleration_ff.1
  let y_dot_dot_acc := acceleration_ff.2
  let x_dot_err := x_dot_cmd - x_dot
  let x_err := x_cmd - x
  let x_dot_dot := self.x_k_p * x_err + self.x_k_d * x_dot_err + x_dot_dot_acc
  let y_dot_err := y_dot_cmd - y_dot
  let y_err := y_cmd - y
  let y_dot_dot := self.x_k_p * y_err + self.y_k_d * y_dot_err + y_dot_dot_acc
  (-x_dot_dot, -y_dot_dot)

/-! ## `roll_pitch_controller` -/

/-- `NonlinearController.roll_pitch_controller`: converts a horizontal
acceleration command into (roll-rate, pitch-rate) commands through the
current rotation matrix, zeroing each rate once the corresponding angle
limit is exceeded.  The `thrust_cmd` parameter is accepted but never read,
as in the source. -/
def roll_pitch_controller (self : NonlinearController)
    (acceleration_cmd : ℝ × ℝ) (attitude : ℝ × ℝ × ℝ) (thrust_cmd : ℝ) : ℝ × ℝ :=
  let b_x_c := acceleration_cmd.1
  let b_y_c := acceleration_cmd.2
  let rot_mat := euler2RM attitude.1 attitude.2.1 attitude.2.2
  let b_x_err := b_x_c - rot_mat.m02
  let b_x_p_term := self.k_p_roll * b_x_err
  let b_y_err := b_y_c - rot_mat.m12
  let b_y_p_term := self.k_p_pitch * b_y_err
  let rot_rate_p :=
    (rot_mat.m10 / rot_mat.m22) * b_x_p_term + (-rot_mat.m00 / rot_mat.m22) * b_y_p_term
  let rot_rate_q :=
    (rot_mat.m11 / rot_mat.m22) * b_x_p_term + (-rot_mat.m01 / rot_mat.m22) * b_y_p_term
  let p_c :=
    if attitude.1 > self.max_roll_rad ∨ attitude.1 < -self.max_roll_rad then 0.0
    else rot_rate_p
  let q_c :=
    if attitude.2.1 > self.max_pitch_rad ∨ attitude.2.1 < -self.max_pitch_rad then 0.0
    else rot_rate_q
  (p_c, q_c)

/-! ## `body_rate_control` -/

/-- The raw (pre-saturation) moment command of
`NonlinearController.body_rate_control`: per-axis P control scaled
elementwise by the moment of inertia. -/
def rawMoment (self : NonlinearController) (body_rate_cmd body_rate : ℝ × ℝ × ℝ) :
    ℝ × ℝ × ℝ :=
  let p_err := body_rate_cmd.1 - body_rate.1
  let u_bar_p := self.k_p_p * p_err
  let q_err := body_rate_cmd.2.1 - body_rate.2.1
  let u_bar_q := self.k_p_q * q_err
  let r_err := body_rate_cmd.2.2 - body_rate.2.2
  let u_bar_r := self.k_p_r * r_err
  (MOI.1 * u_bar_p, MOI.2.1 * u_bar_q, MOI.2.2 * u_bar_r)

/-- `NonlinearController.body_rate_control`: the raw moment, rescaled to
Euclidean norm `MAX_TORQUE` whenever its norm exceeds `MAX_TORQUE`. -/
def body_rate_control (self : NonlinearController)
    (body_rate_cmd body_rate : ℝ × ℝ × ℝ) : ℝ × ℝ × ℝ :=
  let moment_cmd := rawMoment self body_rate_cmd body_rate
  if norm3 moment_cmd > MAX_TORQUE then
    vdiv (vsmul MAX_TORQUE moment_cmd) (norm3 moment_cmd)
  else moment_cmd

/-! ## `yaw_control` -/

/-- The wrapped yaw error computed by `NonlinearController.yaw_control`:
the raw error `yaw_cmd - yaw`, shifted by `-2π` if it exceeds `π` and by
`+2π` if it is below `-π`. -/
def yawWrapErr (yaw_cmd yaw : ℝ) : ℝ :=
  let yaw_err := yaw_cmd - yaw
  if yaw_err > Real.pi then yaw_err - 2.0 * Real.pi
  else if yaw_err < -Real.pi then yaw_err + 2.0 * Real.pi
  else yaw_err

/-- `NonlinearController.yaw_control`: P control on the wrapped yaw error. -/
def yaw_control (self : NonlinearController) (yaw_cmd yaw : ℝ) : ℝ :=
  self.k_p_yaw * yawWrapErr yaw_cmd yaw

/-! ## `trajectory_control` -/

/-- `NonlinearController.trajectory_control`: samples a waypoint list at
`current_time`.  `np.argmin` over `|t - current_time|` picks the reference
index; if `current_time` precedes that timestamp the code brackets with the
*previous* waypoint (index `ind_min - 1`, which is Python's wrap-around
index `-1` selecting the last element when `ind_min = 0`); at or past the
last waypoint a dummy unit interval holds position constant. -/
def trajectory_control (position_trajectory : List (ℝ × ℝ × ℝ))
    (yaw_trajectory : List ℝ) (time_trajectory : List ℝ)
    (current_time : ℝ) : (ℝ × ℝ × ℝ) × (ℝ × ℝ × ℝ) × ℝ :=
  let ind_min := idxMin (time_trajectory.map fun t => |t - current_time|)
  let time_ref := pyGet time_trajectory 0 (ind_min : ℤ)
  let b :=
    if current_time < time_ref then
      (pyGet position_trajectory (0, 0, 0) ((ind_min : ℤ) - 1),
       pyGet position_trajectory (0, 0, 0) (ind_min : ℤ),
       pyGet time_trajectory 0 ((ind_min : ℤ) - 1),
       pyGet time_trajectory 0 (ind_min : ℤ),
       pyGet yaw_trajectory 0 ((ind_min : ℤ) - 1))
    else if (ind_min : ℤ) ≥ (position_trajectory.length : ℤ) - 1 then
      (pyGet position_trajectory (0, 0, 0) (ind_min : ℤ),
       pyGet position_trajectory (0, 0, 0) (ind_min : ℤ),
       0.0, 1.0,
       pyGet yaw_trajectory 0 (ind_min : ℤ))
    else
      (pyGet position_trajectory (0, 0, 0) (ind_min : ℤ),
       pyGet position_trajectory (0, 0, 0) ((ind_min : ℤ) + 1),
       pyGet time_trajectory 0 (ind_min : ℤ),
       pyGet time_trajectory 0 ((ind_min : ℤ) + 1),
       pyGet yaw_trajectory 0 (ind_min : ℤ))
  let position0 := b.1
  let position1 := b.2.1
  let time0 := b.2.2.1
  let time1 := b.2.2.2.1
  let yaw_cmd := b.2.2.2.2
  let position_cmd :=
    vadd (vdiv (vsmul (current_time - time0) (vsub position1 position0)) (time1 - time0))
      position0
  let velocity_cmd := vdiv (vsub position1 position0) (time1 - time0)
  (position_cmd, velocity_cmd, yaw_cmd)

/-! ## Helper lemmas about the numpy primitives -/

theorem idxMin_lt_length (l : List ℝ) (h : l ≠ []) : idxMin l < l.length := by
  induction l with
  | nil => exact absurd rfl h
  | cons a rest ih =>
    cases rest with
    | nil => simp [idxMin]
    | cons b t =>
      simp only [idxMin]
      split
      · simp
      · have hlt := ih (by simp)
        simpa using Nat.succ_lt_succ hlt

theorem idxMin_le (l : List ℝ) : ∀ k, k < l.length → l.getD (idxMin l) 0 ≤ l.getD k 0 := by
  induction l with
  | nil => intro k hk; simp at hk
  | cons a rest ih =>
    cases rest with
    | nil =>
      intro k hk
      have hk0 : k = 0 := by simpa using Nat.lt_one_iff.mp (by simpa using hk)
      subst hk0
      simp [idxMin]
    | cons b t =>
      intro k hk
      simp only [idxMin]
      by_cases hle : a ≤ (b :: t).getD (idxMin (b :: t)) 0
      · rw [if_pos hle]
        cases k with
        | zero => simp
        | succ k =>
          have hk' : k < (b :: t).length := by simpa using hk
          calc (a :: b :: t).getD 0 0 = a := by simp
            _ ≤ (b :: t).getD (idxMin (b :: t)) 0 := hle
            _ ≤ (b :: t).getD k 0 := ih k hk'
            _ = (a :: b :: t).getD (k + 1) 0 := by simp
      · rw [if_neg hle]
        have hlt : (b :: t).getD (idxMin (b :: t)) 0 ≤ a := le_of_lt (lt_of_not_le hle)
        cases k with
        | zero => simpa using hlt
        | succ k =>
          have hk' : k < (b :: t).length := by simpa using hk
          simpa using ih k hk'

theorem idxMin_eq_of_unique (l : List ℝ) (i : ℕ) (hi : i < l.length)
    (h : ∀ k, k < l.length → k ≠ i → l.getD i 0 < l.getD k 0) : idxMin l = i := by
  by_contra hne
  have hnil : l ≠ [] := by
    intro h0
    rw [h0] at hi
    exact absurd hi (by simp)
  have h1 : l.getD (idxMin l) 0 ≤ l.getD i 0 := idxMin_le l i hi
  have h2 : l.getD i 0 < l.getD (idxMin l) 0 :=
    h (idxMin l) (idxMin_lt_length l hnil) hne
  exact absurd (lt_of_le_of_lt h1 h2) (lt_irrefl _)

theorem getD_map (f : ℝ → ℝ) (l : List ℝ) : ∀ k, k < l.length →
    (l.map f).getD k 0 = f (l.getD k 0) := by
  induction l with
  | nil => intro k hk; simp at hk
  | cons a rest ih =>
    intro k hk
    cases k with
    | zero => simp
    | succ k => simpa using ih k (by simpa using hk)

theorem pyGet_natCast {α : Type} (l : List α) (d : α) (n : ℕ) :
    pyGet l d (n : ℤ) = l.getD n d := by
  simp [pyGet]

theorem pyGet_neg_one {α : Type} (l : List α) (d : α) :
    pyGet l d (-1) = l.getD (l.length - 1) d := by
  simp [pyGet]

theorem vsub_self (v : ℝ × ℝ × ℝ) : vsub v v = (0, 0, 0) := by
  simp [vsub]

theorem vsmul_zero_right (c : ℝ) : vsmul c (0, 0, 0) = (0, 0, 0) := by
  simp [vsmul]

theorem vsmul_zero_left (v : ℝ × ℝ × ℝ) : vsmul 0 v = (0, 0, 0) := by
  simp [vsmul]

theorem vdiv_zero_left (c : ℝ) : vdiv (0, 0, 0) c = (0, 0, 0) := by
  simp [vdiv]

theorem vadd_zero_left (v : ℝ × ℝ × ℝ) : vadd (0, 0, 0) v = v := by
  simp [vadd]

theorem norm3_nonneg (v : ℝ × ℝ × ℝ) : 0 ≤ norm3 v := Real.sqrt_nonneg _

theorem norm3_smul (c : ℝ) (v : ℝ × ℝ × ℝ) : norm3 (vsmul c v) = |c| * norm3 v := by
  unfold norm3 vsmul
  rw [show (c * v.1) ^ 2 + (c * v.2.1) ^ 2 + (c * v.2.2) ^ 2 =
      c ^ 2 * (v.1 ^ 2 + v.2.1 ^ 2 + v.2.2 ^ 2) by ring]
  rw [Real.sqrt_mul (sq_nonneg c), Real.sqrt_sq_eq_abs]

theorem norm3_vdiv (v : ℝ × ℝ × ℝ) (c : ℝ) : norm3 (vdiv v c) = norm3 v / |c| := by
  have h : vdiv v c = vsmul c⁻¹ v := by
    simp [vdiv, vsmul, div_eq_inv_mul]
  rw [h, norm3_smul, abs_inv, inv_mul_eq_div]

/-! ## Claim theorems -/

/-- C1: for every input (any gains, any commanded/actual altitude and
vertical velocity, any attitude, any feed-forward acceleration — in
particular also when `b_z = rot_mat[2,2]` is zero or near zero), the thrust
returned by `altitude_control` lies within `[0, MAX_THRUST]`.  In this
exact-real model division is total (`x / 0 = 0`), so the claim holds with
no hypothesis at all; the final `clip` forces the bound whatever the
division produced. -/
theorem altitude_thrust_bounded (self : NonlinearController)
    (altitude_cmd vertical_velocity_cmd altitude vertical_velocity : ℝ)
    (attitude : ℝ × ℝ × ℝ) (acceleration_ff : ℝ) :
    0 ≤ altitude_control self altitude_cmd vertical_velocity_cmd altitude
        vertical_velocity attitude acceleration_ff ∧
    altitude_control self altitude_cmd vertical_velocity_cmd altitude
        vertical_velocity attitude acceleration_ff ≤ MAX_THRUST := by
  unfold altitude_control clip
  refine ⟨le_min ?_ ?_, min_le_right _ _⟩
  · exact le_trans (by norm_num) (le_max_right _ 0.0)
  · norm_num [MAX_THRUST]

/-- C3: whenever `b_z = rot_mat[2,2]` is nonzero, `altitude_control`
returns `clip((z_k_p*(altitude_cmd − altitude) + z_k_d*(vertical_velocity_cmd −
vertical_velocity) + acceleration_ff − GRAVITY) / b_z, 0, MAX_THRUST)`; and
in the hover scenario (zero errors, level attitude so `b_z = 1`, zero
feed-forward, gravity `-9.81`) the returned thrust is exactly `9.81`,
within `[0, 10]`. -/
theorem altitude_control_formula :
    (∀ (self : NonlinearController)
      (altitude_cmd vertical_velocity_cmd altitude vertical_velocity : ℝ)
      (attitude : ℝ × ℝ × ℝ) (acceleration_ff : ℝ),
      (euler2RM attitude.1 attitude.2.1 attitude.2.2).m22 ≠ 0 →
      altitude_control self altitude_cmd vertical_velocity_cmd altitude
          vertical_velocity attitude acceleration_ff =
        clip ((self.z_k_p * (altitude_cmd - altitude) +
              self.z_k_d * (vertical_velocity_cmd - vertical_velocity) +
              acceleration_ff - GRAVITY) /
            (euler2RM attitude.1 attitude.2.1 attitude.2.2).m22) 0.0 MAX_THRUST) ∧
    altitude_control defaultController 0 0 0 0 (0, 0, 0) 0 = 9.81 ∧
    (0 : ℝ) ≤ 9.81 ∧ (9.81 : ℝ) ≤ 10 := by
  refine ⟨fun self ac vvc a vv att ff _ => rfl, ?_, by norm_num, by norm_num⟩
  unfold altitude_control euler2RM defaultController GRAVITY MAX_THRUST clip
  norm_num

/-- Witness for C3 at the hover input: `b_z = 1 ≠ 0` and the formula
instance there. -/
theorem altitude_control_formula_witness :
    (euler2RM (0 : ℝ) 0 0).m22 ≠ 0 ∧
    altitude_control defaultController 0 0 0 0 (0, 0, 0) 0 =
      clip ((defaultController.z_k_p * (0 - 0) +
            defaultController.z_k_d * (0 - 0) + 0 - GRAVITY) /
          (euler2RM (0 : ℝ) 0 0).m22) 0.0 MAX_THRUST := by
  have h : (euler2RM (0 : ℝ) 0 0).m22 ≠ 0 := by
    simp [euler2RM]
  exact ⟨h, altitude_control_formula.1 defaultController 0 0 0 0 (0, 0, 0) 0 h⟩

/-- C9: `roll_pitch_controller` never reads its `thrust_cmd` argument, so
any two calls differing only in `thrust_cmd` return identical
(roll-rate, pitch-rate) commands. -/
theorem roll_pitch_thrust_independent (self : NonlinearController)
    (acceleration_cmd : ℝ × ℝ) (attitude : ℝ × ℝ × ℝ)
    (thrust_cmd thrust_cmd' : ℝ) :
    roll_pitch_controller self acceleration_cmd attitude thrust_cmd =
      roll_pitch_controller self acceleration_cmd attitude thrust_cmd' := rfl

/-- C8: if the current roll angle exceeds `max_roll_rad` in absolute value
the returned roll-rate command is exactly 0, and symmetrically for pitch,
regardless of the commanded acceleration and thrust. -/
theorem roll_pitch_angle_zeroing (self : NonlinearController)
    (acceleration_cmd : ℝ × ℝ) (attitude : ℝ × ℝ × ℝ) (thrust_cmd : ℝ) :
    (self.max_roll_rad < |attitude.1| →
      (roll_pitch_controller self acceleration_cmd attitude thrust_cmd).1 = 0) ∧
    (self.max_pitch_rad < |attitude.2.1| →
      (roll_pitch_controller self acceleration_cmd attitude thrust_cmd).2 = 0) := by
  constructor
  · intro h
    have h' : attitude.1 > self.max_roll_rad ∨ attitude.1 < -self.max_roll_rad := by
      rcases lt_abs.mp h with h1 | h1
      · exact Or.inl h1
      · exact Or.inr (by linarith)
    unfold roll_pitch_controller
    simp only
    rw [if_pos h']
    norm_num
  · intro h
    have h' : attitude.2.1 > self.max_pitch_rad ∨ attitude.2.1 < -self.max_pitch_rad := by
      rcases lt_abs.mp h with h1 | h1
      · exact Or.inl h1
      · exact Or.inr (by linarith)
    unfold roll_pitch_controller
    simp only
    rw [if_pos h']
    norm_num

/-- Witness for C8: with the default angle limit 1 rad and attitude
(2, 2, 0) both rates are zeroed. -/
theorem roll_pitch_angle_zeroing_witness :
    defaultController.max_roll_rad < |(2 : ℝ)| ∧
    (roll_pitch_controller defaultController (0, 0) (2, 2, 0) 0).1 = 0 := by
  have h : defaultController.max_roll_rad < |(2 : ℝ)| := by
    rw [show |(2 : ℝ)| = 2 from abs_of_pos (by norm_num)]
    norm_num [defaultController]
  exact ⟨h, (roll_pitch_angle_zeroing defaultController (0, 0) (2, 2, 0) 0).1 h⟩

/-- C2 (amended): `body_rate_control` returns the raw moment
`MOI ⊙ (Kp ⊙ (cmd − actual))` when its Euclidean norm is at most
`MAX_TORQUE`, and otherwise rescales it (direction preserved) to norm
exactly `MAX_TORQUE`; the returned norm never exceeds `MAX_TORQUE`, and it
equals `MAX_TORQUE` exactly when the raw norm is at least `MAX_TORQUE`
(the boundary case of a raw norm exactly `MAX_TORQUE` passes through
un-rescaled and also attains equality). -/
theorem body_rate_control_spec (self : NonlinearController)
    (body_rate_cmd body_rate : ℝ × ℝ × ℝ) :
    (norm3 (rawMoment self body_rate_cmd body_rate) ≤ MAX_TORQUE →
      body_rate_control self body_rate_cmd body_rate =
        rawMoment self body_rate_cmd body_rate) ∧
    (norm3 (rawMoment self body_rate_cmd body_rate) > MAX_TORQUE →
      body_rate_control self body_rate_cmd body_rate =
        vdiv (vsmul MAX_TORQUE (rawMoment self body_rate_cmd body_rate))
          (norm3 (rawMoment self body_rate_cmd body_rate)) ∧
      norm3 (body_rate_control self body_rate_cmd body_rate) = MAX_TORQUE) ∧
    norm3 (body_rate_control self body_rate_cmd body_rate) ≤ MAX_TORQUE ∧
    (norm3 (body_rate_control self body_rate_cmd body_rate) = MAX_TORQUE ↔
      MAX_TORQUE ≤ norm3 (rawMoment self body_rate_cmd body_rate)) := by
  have hT : (0 : ℝ) < MAX_TORQUE := by norm_num [MAX_TORQUE]
  by_cases h : norm3 (rawMoment self body_rate_cmd body_rate) > MAX_TORQUE
  · have hres : body_rate_control self body_rate_cmd body_rate =
        vdiv (vsmul MAX_TORQUE (rawMoment self body_rate_cmd body_rate))
          (norm3 (rawMoment self body_rate_cmd body_rate)) := by
      unfold body_rate_control
      rw [if_pos h]
    have hn0 : norm3 (rawMoment self body_rate_cmd body_rate) ≠ 0 := by
      intro h0
      rw [h0] at h
      exact absurd (lt_trans hT h) (lt_irrefl _)
    have hnorm : norm3 (body_rate_control self body_rate_cmd body_rate) = MAX_TORQUE := by
      rw [hres, norm3_vdiv, norm3_smul]
      rw [abs_of_pos hT, abs_of_nonneg (norm3_nonneg _)]
      rw [mul_div_assoc, div_self hn0, mul_one]
    refine ⟨fun hle => absurd (lt_of_lt_of_le h hle) (lt_irrefl _),
      fun _ => ⟨hres, hnorm⟩, le_of_eq hnorm, ?_⟩
    exact ⟨fun _ => le_of_lt h, fun _ => hnorm⟩
  · have hle : norm3 (rawMoment self body_rate_cmd body_rate) ≤ MAX_TORQUE :=
      le_of_not_lt h
    have hres : body_rate_control self body_rate_cmd body_rate =
        rawMoment self body_rate_cmd body_rate := by
      unfold body_rate_control
      rw [if_neg h]
    refine ⟨fun _ => hres, fun hgt => absurd hgt h, ?_, ?_⟩
    · rw [hres]; exact hle
    · rw [hres]
      exact ⟨fun he => le_of_eq he.symm, fun hge => le_antisymm hle hge⟩

/-- Witness for C2's amended theorem at zero rates: the raw moment is zero,
below the torque limit, and is returned unchanged. -/
theorem body_rate_control_spec_witness :
    norm3 (rawMoment defaultController (0, 0, 0) (0, 0, 0)) ≤ MAX_TORQUE ∧
    body_rate_control defaultController (0, 0, 0) (0, 0, 0) =
      rawMoment defaultController (0, 0, 0) (0, 0, 0) := by
  have h : norm3 (rawMoment defaultController (0, 0, 0) (0, 0, 0)) ≤ MAX_TORQUE := by
    unfold norm3 rawMoment MOI MAX_TORQUE
    norm_num
  exact ⟨h, (body_rate_control_spec defaultController (0, 0, 0) (0, 0, 0)).1 h⟩

/-- Counterexample to C2 as stated: with the default gains,
`body_rate_cmd = (0,0,10)` and `body_rate = (0,0,0)` give the raw moment
`(0,0,1)` of norm exactly `MAX_TORQUE = 1`; the returned norm equals
`MAX_TORQUE` although the raw moment does *not* exceed the limit and no
rescaling happens — refuting "equality only when the raw moment exceeds
the limit and is rescaled". -/
theorem body_rate_saturation_boundary :
    norm3 (body_rate_control defaultController (0, 0, 10) (0, 0, 0)) = MAX_TORQUE ∧
    ¬ norm3 (rawMoment defaultController (0, 0, 10) (0, 0, 0)) > MAX_TORQUE := by
  have hraw : rawMoment defaultController (0, 0, 10) (0, 0, 0) = (0, 0, 1) := by
    unfold rawMoment MOI defaultController
    norm_num
  have hn : norm3 ((0, 0, 1) : ℝ × ℝ × ℝ) = 1 := by
    unfold norm3
    norm_num
  have hngt : ¬ norm3 (rawMoment defaultController (0, 0, 10) (0, 0, 0)) > MAX_TORQUE := by
    rw [hraw, hn]
    norm_num [MAX_TORQUE]
  have hres : body_rate_control defaultController (0, 0, 10) (0, 0, 0) =
      rawMoment defaultController (0, 0, 10) (0, 0, 0) := by
    unfold body_rate_control
    rw [if_neg hngt]
  refine ⟨?_, hngt⟩
  rw [hres, hraw, hn]
  norm_num [MAX_TORQUE]

/-- C7 (amended): `lateral_position_control` returns
`(-(x_k_p*x_err + x_k_d*x_dot_err + ff_north),
  -(x_k_p*y_err + y_k_d*y_dot_err + ff_east))` with no clipping — the
*east* proportional term uses the x-axis gain `x_k_p`, as the source does,
not `y_k_p`. -/
theorem lateral_position_control_formula (self : NonlinearController)
    (local_position_cmd local_velocity_cmd local_position local_velocity
      acceleration_ff : ℝ × ℝ) :
    lateral_position_control self local_position_cmd local_velocity_cmd
        local_position local_velocity acceleration_ff =
      (-(self.x_k_p * (local_position_cmd.1 - local_position.1) +
          self.x_k_d * (local_velocity_cmd.1 - local_velocity.1) +
          acceleration_ff.1),
       -(self.x_k_p * (local_position_cmd.2 - local_position.2) +
          self.y_k_d * (local_velocity_cmd.2 - local_velocity.2) +
          acceleration_ff.2)) := rfl

/-- An asymmetric configuration separating the two proportional gains. -/
def asymController : NonlinearController :=
  { defaultController with x_k_p := 1.0, y_k_p := 2.0 }

/-- Counterexample to C7 as stated: with `x_k_p = 1` and `y_k_p = 2`, a
pure east position error of 1 yields east output `-1` (the code multiplies
by `x_k_p`), not the claimed `-(y_k_p*(y_cmd − y) + y_k_d*(y_dot_cmd −
y_dot) + ff_east) = -2`. -/
theorem lateral_gain_counterexample :
    (lateral_position_control asymController (0, 1) (0, 0) (0, 0) (0, 0) (0, 0)).2 ≠
      -(asymController.y_k_p * ((1 : ℝ) - 0) + asymController.y_k_d * ((0 : ℝ) - 0) + 0) := by
  unfold lateral_position_control asymController defaultController
  norm_num

/-- C6 (amended): when the raw difference `yaw_cmd − yaw` has absolute
value at most `2π`, the wrapped error lies in the *closed* interval
`[−π, π]` (the endpoint `−π` is attained when the raw error is exactly
`−π`, which the single-step wrap leaves unchanged), and the returned rate
is `k_p_yaw` times the wrapped error; the return is exactly 0 when
`yaw_cmd = yaw`, and for `yaw = 3`, `yaw_cmd = −3` it equals
`k_p_yaw * (2π − 6)`. -/
theorem yaw_control_wrapped (self : NonlinearController) (yaw_cmd yaw : ℝ)
    (h : |yaw_cmd - yaw| ≤ 2 * Real.pi) :
    (-Real.pi ≤ yawWrapErr yaw_cmd yaw ∧ yawWrapErr yaw_cmd yaw ≤ Real.pi) ∧
    yaw_control self yaw_cmd yaw = self.k_p_yaw * yawWrapErr yaw_cmd yaw ∧
    yaw_control self yaw yaw = 0 ∧
    yaw_control self (-3) 3 = self.k_p_yaw * (2 * Real.pi - 6) := by
  have hpi := Real.pi_pos
  have hpi6 : Real.pi < 6 := lt_trans Real.pi_lt_d2 (by norm_num)
  obtain ⟨hlo, hhi⟩ := abs_le.mp h
  refine ⟨?_, rfl, ?_, ?_⟩
  · unfold yawWrapErr
    by_cases h1 : yaw_cmd - yaw > Real.pi
    · rw [if_pos h1]
      constructor <;> linarith
    · rw [if_neg h1]
      by_cases h2 : yaw_cmd - yaw < -Real.pi
      · rw [if_pos h2]
        constructor <;> linarith
      · rw [if_neg h2]
        constructor <;> linarith
  · unfold yaw_control yawWrapErr
    rw [sub_self]
    rw [if_neg (by linarith), if_neg (by linarith)]
    rw [mul_zero]
  · unfold yaw_control yawWrapErr
    rw [show (-3 : ℝ) - 3 = -6 by norm_num]
    rw [if_neg (by linarith), if_pos (by linarith)]
    ring

/-- Witness for C6's amended theorem at `yaw_cmd = yaw = 0`. -/
theorem yaw_control_wrapped_witness :
    |(0 : ℝ) - 0| ≤ 2 * Real.pi ∧
    yaw_control defaultController 0 0 = defaultController.k_p_yaw * yawWrapErr 0 0 := by
  have h : |(0 : ℝ) - 0| ≤ 2 * Real.pi := by
    rw [sub_zero, abs_zero]
    positivity
  exact ⟨h, (yaw_control_wrapped defaultController 0 0 h).2.1⟩

/-- Counterexample to C6 as stated: for `yaw_cmd = 0`, `yaw = π` the raw
difference is `−π` (within `2π` in absolute value), yet the wrapped error
is `−π` itself, which does *not* lie in the half-open interval `(−π, π]`
the claim asserts. -/
theorem yaw_wrap_boundary :
    |(0 : ℝ) - Real.pi| ≤ 2 * Real.pi ∧ ¬ (-Real.pi < yawWrapErr 0 Real.pi) := by
  have hpi := Real.pi_pos
  constructor
  · rw [abs_of_nonpos (by linarith)]
    linarith
  · unfold yawWrapErr
    simp only
    rw [if_neg (by linarith), if_neg (by linarith)]
    intro hcontra
    rw [zero_sub] at hcontra
    exact absurd hcontra (lt_irrefl _)

/-! ## Branch evaluations of `trajectory_control` -/

theorem pyGet_zero {α : Type} (l : List α) (d : α) : pyGet l d 0 = l.getD 0 d := by
  simp [pyGet]

/-- Evaluation of `trajectory_control` in the interior else-branch:
`current_time` is not before the reference timestamp and the reference
index is not the last waypoint. -/
theorem trajectory_control_else_mid (position_trajectory : List (ℝ × ℝ × ℝ))
    (yaw_trajectory time_trajectory : List ℝ) (current_time : ℝ) (i : ℕ)
    (hind : idxMin (time_trajectory.map fun t => |t - current_time|) = i)
    (hnotlt : ¬ current_time < pyGet time_trajectory 0 (i : ℤ))
    (hnotlast : ¬ ((i : ℤ) ≥ (position_trajectory.length : ℤ) - 1)) :
    trajectory_control position_trajectory yaw_trajectory time_trajectory current_time =
      (vadd (vdiv (vsmul (current_time - pyGet time_trajectory 0 (i : ℤ))
            (vsub (pyGet position_trajectory (0, 0, 0) ((i : ℤ) + 1))
              (pyGet position_trajectory (0, 0, 0) (i : ℤ))))
          (pyGet time_trajectory 0 ((i : ℤ) + 1) - pyGet time_trajectory 0 (i : ℤ)))
        (pyGet position_trajectory (0, 0, 0) (i : ℤ)),
       vdiv (vsub (pyGet position_trajectory (0, 0, 0) ((i : ℤ) + 1))
           (pyGet position_trajectory (0, 0, 0) (i : ℤ)))
         (pyGet time_trajectory 0 ((i : ℤ) + 1) - pyGet time_trajectory 0 (i : ℤ)),
       pyGet yaw_trajectory 0 (i : ℤ)) := by
  simp only [trajectory_control, hind]
  rw [if_neg hnotlt, if_neg hnotlast]

/-- Evaluation of `trajectory_control` in the final-waypoint else-branch:
the dummy unit interval holds position constant and zeroes the velocity. -/
theorem trajectory_control_else_last (position_trajectory : List (ℝ × ℝ × ℝ))
    (yaw_trajectory time_trajectory : List ℝ) (current_time : ℝ) (i : ℕ)
    (hind : idxMin (time_trajectory.map fun t => |t - current_time|) = i)
    (hnotlt : ¬ current_time < pyGet time_trajectory 0 (i : ℤ))
    (hlast : (i : ℤ) ≥ (position_trajectory.length : ℤ) - 1) :
    trajectory_control position_trajectory yaw_trajectory time_trajectory current_time =
      (pyGet position_trajectory (0, 0, 0) (i : ℤ), (0, 0, 0),
       pyGet yaw_trajectory 0 (i : ℤ)) := by
  simp only [trajectory_control, hind]
  rw [if_neg hnotlt, if_pos hlast]
  simp only [vsub_self, vsmul_zero_right, vdiv_zero_left, vadd_zero_left]

/-- Evaluation of `trajectory_control` in the then-branch
(`current_time` before the reference timestamp): the code brackets with
Python index `ind_min - 1`, which wraps to the *last* element when
`ind_min = 0`. -/
theorem trajectory_control_before (position_trajectory : List (ℝ × ℝ × ℝ))
    (yaw_trajectory time_trajectory : List ℝ) (current_time : ℝ) (i : ℕ)
    (hind : idxMin (time_trajectory.map fun t => |t - current_time|) = i)
    (hlt : current_time < pyGet time_trajectory 0 (i : ℤ)) :
    trajectory_control position_trajectory yaw_trajectory time_trajectory current_time =
      (vadd (vdiv (vsmul (current_time - pyGet time_trajectory 0 ((i : ℤ) - 1))
            (vsub (pyGet position_trajectory (0, 0, 0) (i : ℤ))
              (pyGet position_trajectory (0, 0, 0) ((i : ℤ) - 1))))
          (pyGet time_trajectory 0 (i : ℤ) - pyGet time_trajectory 0 ((i : ℤ) - 1)))
        (pyGet position_trajectory (0, 0, 0) ((i : ℤ) - 1)),
       vdiv (vsub (pyGet position_trajectory (0, 0, 0) (i : ℤ))
           (pyGet position_trajectory (0, 0, 0) ((i : ℤ) - 1)))
         (pyGet time_trajectory 0 (i : ℤ) - pyGet time_trajectory 0 ((i : ℤ) - 1)),
       pyGet yaw_trajectory 0 ((i : ℤ) - 1)) := by
  simp only [trajectory_control, hind]
  rw [if_pos hlt]

/-! ## Locating the argmin of `|t - current_time|` -/

/-- Sampling exactly at the `i`-th timestamp of a strictly increasing
timestamp list makes index `i` the unique argmin of `|t - current_time|`. -/
theorem idxMin_at_waypoint (time_trajectory : List ℝ) (i : ℕ)
    (hi : i < time_trajectory.length)
    (hmono : ∀ j k, j < k → k < time_trajectory.length →
      time_trajectory.getD j 0 < time_trajectory.getD k 0) :
    idxMin (time_trajectory.map fun t => |t - time_trajectory.getD i 0|) = i := by
  apply idxMin_eq_of_unique
  · rw [List.length_map]
    exact hi
  · intro k hk hki
    rw [List.length_map] at hk
    rw [getD_map _ _ i hi, getD_map _ _ k hk]
    rw [sub_self, abs_zero]
    apply abs_pos.mpr
    apply sub_ne_zero.mpr
    rcases Nat.lt_or_ge k i with hlt | hge
    · exact ne_of_lt (hmono k i hlt hi)
    · exact ne_of_gt (hmono i k (lt_of_le_of_ne hge (Ne.symm hki)) hk)

/-- Sampling past the last timestamp of a strictly increasing timestamp
list makes the last index the unique argmin of `|t - current_time|`. -/
theorem idxMin_past_end (time_trajectory : List ℝ) (current_time : ℝ)
    (hn : 1 ≤ time_trajectory.length)
    (hmono : ∀ j k, j < k → k < time_trajectory.length →
      time_trajectory.getD j 0 < time_trajectory.getD k 0)
    (hct : time_trajectory.getD (time_trajectory.length - 1) 0 < current_time) :
    idxMin (time_trajectory.map fun t => |t - current_time|) =
      time_trajectory.length - 1 := by
  apply idxMin_eq_of_unique
  · rw [List.length_map]
    omega
  · intro k hk hki
    rw [List.length_map] at hk
    rw [getD_map _ _ _ (by omega), getD_map _ _ k hk]
    have hklt : k < time_trajectory.length - 1 := by omega
    have h1 : time_trajectory.getD k 0 <
        time_trajectory.getD (time_trajectory.length - 1) 0 :=
      hmono k (time_trajectory.length - 1) hklt (by omega)
    rw [abs_of_neg (by linarith), abs_of_neg (by linarith)]
    linarith

/-- Sampling before the first timestamp of a strictly increasing timestamp
list makes index 0 the unique argmin of `|t - current_time|`. -/
theorem idxMin_before_start (time_trajectory : List ℝ) (current_time : ℝ)
    (hn : 1 ≤ time_trajectory.length)
    (hmono : ∀ j k, j < k → k < time_trajectory.length →
      time_trajectory.getD j 0 < time_trajectory.getD k 0)
    (hct : current_time < time_trajectory.getD 0 0) :
    idxMin (time_trajectory.map fun t => |t - current_time|) = 0 := by
  apply idxMin_eq_of_unique
  · rw [List.length_map]
    omega
  · intro k hk hki
    rw [List.length_map] at hk
    rw [getD_map _ _ 0 (by omega), getD_map _ _ k hk]
    have h1 : time_trajectory.getD 0 0 < time_trajectory.getD k 0 :=
      hmono 0 k (Nat.pos_of_ne_zero hki) hk
    rw [abs_of_pos (by linarith), abs_of_pos (by linarith)]
    linarith

/-- C4: for a trajectory with strictly increasing timestamps and
equal-length lists, sampling exactly at `time_trajectory[i]` (for any
waypoint `i` that has a successor) returns `position_cmd =
position_trajectory[i]`, `yaw_cmd = yaw_trajectory[i]`, and
`velocity_cmd` equal to the forward difference to the next waypoint. -/
theorem trajectory_waypoint_exact (position_trajectory : List (ℝ × ℝ × ℝ))
    (yaw_trajectory time_trajectory : List ℝ) (i : ℕ)
    (hlen_pos : position_trajectory.length = time_trajectory.length)
    (hmono : ∀ j k, j < k → k < time_trajectory.length →
      time_trajectory.getD j 0 < time_trajectory.getD k 0)
    (hi : i + 1 < time_trajectory.length) :
    trajectory_control position_trajectory yaw_trajectory time_trajectory
        (time_trajectory.getD i 0) =
      (position_trajectory.getD i (0, 0, 0),
       vdiv (vsub (position_trajectory.getD (i + 1) (0, 0, 0))
           (position_trajectory.getD i (0, 0, 0)))
         (time_trajectory.getD (i + 1) 0 - time_trajectory.getD i 0),
       yaw_trajectory.getD i 0) := by
  have hind := idxMin_at_waypoint time_trajectory i (by omega) hmono
  have hnotlt : ¬ time_trajectory.getD i 0 < pyGet time_trajectory 0 (i : ℤ) := by
    rw [pyGet_natCast]
    exact lt_irrefl _
  have hnotlast : ¬ ((i : ℤ) ≥ (position_trajectory.length : ℤ) - 1) := by
    rw [hlen_pos]
    omega
  rw [trajectory_control_else_mid position_trajectory yaw_trajectory time_trajectory
    (time_trajectory.getD i 0) i hind hnotlt hnotlast]
  have hcast : ((i : ℤ) + 1) = ((i + 1 : ℕ) : ℤ) := by push_cast; ring
  simp only [hcast, pyGet_natCast, sub_self, vsmul_zero_left, vdiv_zero_left,
    vadd_zero_left]

/-- Witness for C4 on a concrete two-waypoint trajectory sampled at its
first timestamp. -/
theorem trajectory_waypoint_exact_witness :
    trajectory_control [(0, 0, 0), (1, 2, 3)] [5, 6] [0, 1] 0 =
      ((0, 0, 0), (1, 2, 3), 5) := by
  have h := trajectory_waypoint_exact [(0, 0, 0), (1, 2, 3)] [5, 6] [0, 1] 0
    (by simp)
    (by
      intro j k hjk hk
      simp only [List.length_cons, List.length_nil] at hk
      have hk1 : k = 1 := by omega
      have hj0 : j = 0 := by omega
      subst hk1
      subst hj0
      norm_num)
    (by simp)
  simp only [List.getD_cons_zero, List.getD_cons_succ] at h
  rw [h]
  unfold vdiv vsub
  norm_num

/-- C5: for a trajectory with strictly increasing timestamps, sampling at
any time past the final timestamp holds the final position constant,
returns the final yaw, and returns `velocity_cmd = (0, 0, 0)`. -/
theorem trajectory_past_final (position_trajectory : List (ℝ × ℝ × ℝ))
    (yaw_trajectory time_trajectory : List ℝ) (current_time : ℝ)
    (hlen_pos : position_trajectory.length = time_trajectory.length)
    (hlen_yaw : yaw_trajectory.length = time_trajectory.length)
    (hmono : ∀ j k, j < k → k < time_trajectory.length →
      time_trajectory.getD j 0 < time_trajectory.getD k 0)
    (hn : 2 ≤ time_trajectory.length)
    (hct : time_trajectory.getD (time_trajectory.length - 1) 0 < current_time) :
    trajectory_control position_trajectory yaw_trajectory time_trajectory
        current_time =
      (position_trajectory.getD (position_trajectory.length - 1) (0, 0, 0),
       (0, 0, 0),
       yaw_trajectory.getD (yaw_trajectory.length - 1) 0) := by
  have hind := idxMin_past_end time_trajectory current_time (by omega) hmono hct
  have hnotlt : ¬ current_time <
      pyGet time_trajectory 0 ((time_trajectory.length - 1 : ℕ) : ℤ) := by
    rw [pyGet_natCast]
    exact not_lt.mpr (le_of_lt hct)
  have hlast : ((time_trajectory.length - 1 : ℕ) : ℤ) ≥
      (position_trajectory.length : ℤ) - 1 := by
    rw [hlen_pos]
    omega
  rw [trajectory_control_else_last position_trajectory yaw_trajectory time_trajectory
    current_time (time_trajectory.length - 1) hind hnotlt hlast]
  rw [pyGet_natCast, pyGet_natCast, hlen_pos, hlen_yaw]

/-- Witness for C5 on a concrete two-waypoint trajectory sampled after its
final timestamp. -/
theorem trajectory_past_final_witness :
    trajectory_control [(0, 0, 0), (1, 2, 3)] [5, 6] [0, 1] 2 =
      ((1, 2, 3), (0, 0, 0), 6) := by
  have h := trajectory_past_final [(0, 0, 0), (1, 2, 3)] [5, 6] [0, 1] 2
    (by simp) (by simp)
    (by
      intro j k hjk hk
      simp only [List.length_cons, List.length_nil] at hk
      have hk1 : k = 1 := by omega
      have hj0 : j = 0 := by omega
      subst hk1
      subst hj0
      norm_num)
    (by simp)
    (by norm_num [List.getD])
  simpa [List.getD] using h

/-- C10: for a trajectory with strictly increasing timestamps and
`current_time` strictly before the first timestamp, the argmin lands on
index 0, the `current_time < time_ref` branch reads Python index `-1`
(the *last* element), and the call returns, without error, a result
interpolated between the final waypoint (position and timestamp) and the
first one, with `yaw_cmd` equal to the final waypoint's yaw. -/
theorem trajectory_before_first (position_trajectory : List (ℝ × ℝ × ℝ))
    (yaw_trajectory time_trajectory : List ℝ) (current_time : ℝ)
    (hmono : ∀ j k, j < k → k < time_trajectory.length →
      time_trajectory.getD j 0 < time_trajectory.getD k 0)
    (hn : 2 ≤ time_trajectory.length)
    (hct : current_time < time_trajectory.getD 0 0) :
    trajectory_control position_trajectory yaw_trajectory time_trajectory
        current_time =
      (vadd (vdiv (vsmul
            (current_time - time_trajectory.getD (time_trajectory.length - 1) 0)
            (vsub (position_trajectory.getD 0 (0, 0, 0))
              (position_trajectory.getD (position_trajectory.length - 1) (0, 0, 0))))
          (time_trajectory.getD 0 0 -
            time_trajectory.getD (time_trajectory.length - 1) 0))
        (position_trajectory.getD (position_trajectory.length - 1) (0, 0, 0)),
       vdiv (vsub (position_trajectory.getD 0 (0, 0, 0))
           (position_trajectory.getD (position_trajectory.length - 1) (0, 0, 0)))
         (time_trajectory.getD 0 0 -
           time_trajectory.getD (time_trajectory.length - 1) 0),
       yaw_trajectory.getD (yaw_trajectory.length - 1) 0) := by
  have hind := idxMin_before_start time_trajectory current_time (by omega) hmono hct
  have hlt : current_time < pyGet time_trajectory 0 ((0 : ℕ) : ℤ) := by
    rw [pyGet_natCast]
    exact hct
  rw [trajectory_control_before position_trajectory yaw_trajectory time_trajectory
    current_time 0 hind hlt]
  simp only [Nat.cast_zero, zero_sub, pyGet_neg_one, pyGet_zero]

/-- Witness for C10 on a concrete two-waypoint trajectory sampled before
its first timestamp: the result interpolates between the last and first
waypoints and takes the last yaw. -/
theorem trajectory_before_first_witness :
    trajectory_control [(0, 0, 0), (1, 2, 3)] [5, 6] [0, 1] (-1) =
      ((-1, -2, -3), (1, 2, 3), 6) := by
  have h := trajectory_before_first [(0, 0, 0), (1, 2, 3)] [5, 6] [0, 1] (-1)
    (by
      intro j k hjk hk
      simp only [List.length_cons, List.length_nil] at hk
      have hk1 : k = 1 := by omega
      have hj0 : j = 0 := by omega
      subst hk1
      subst hj0
      norm_num)
    (by simp)
    (by norm_num [List.getD])
  rw [h]
  unfold vadd vdiv vsmul vsub
  norm_num [List.getD]

end FCND

end
